import Mathlib

/-
Verification of the multi-server tool-orchestration loop of this repository
(src/agent/agent.py: classes Server and Agent).

The embedding translates the Python source into Lean:
  * JVal            - Python values produced by json.loads (JSON values);
  * jsonLoads       - the json.loads parser (Python's json module semantics:
                      strict strings, ints/floats, NaN/Infinity accepted);
  * pyIn, pyGetItem, pyDiv, pyStr, pyRepr - the Python operations the agent
    code applies to parsed values ("tool" in x, x["tool"], progress/total,
    f-string rendering), with Python's exception behaviour made explicit
    as an Except over PyErr;
  * Server.init / Server.listTools / Server.execTool / Server.cleanup -
    Server.initialize, Server.list_tools, Server.execute_tool,
    Server.cleanup, instrumented with an event trace (Ev) recording the
    observable effects: initializations, cleanups, resource releases,
    completion calls, tool-call attempts, sleeps and log lines;
  * interpretResponse / dispatchTool / processResponse -
    Agent._process_llm_response;
  * initLoop / cleanupServers / convLoop / agentSend - Agent.send and
    Agent.cleanup_servers (the conversation loop runs on fuel; exhausting
    the fuel models the loop still running, so no `finally` teardown is
    recorded in that case).

External boundaries (the MCP transport, the LLM) are oracles supplied by
the Backend structure and by a turn-indexed completion function.
-/

namespace MCP

/-- Python values as returned by `json.loads`: None, bool, numbers
(ints and floats both modelled as rationals; `isFloatLit` is not tracked),
the non-finite floats `NaN`/`Infinity`/`-Infinity` that Python's json
accepts, strings, lists and dicts (insertion-ordered key/value lists). -/
inductive JVal where
  | null
  | bool (b : Bool)
  | num (q : Rat)
  | nan
  | inf (neg : Bool)
  | str (s : String)
  | arr (xs : List JVal)
  | obj (fields : List (String × JVal))

/-- Python exceptions that the agent code can raise or catch. -/
inductive PyErr where
  | typeError (msg : String)
  | keyError (key : String)
  | zeroDivisionError
  | runtimeError (msg : String)
  | valueError (msg : String)
  | userError (msg : String)
deriving DecidableEq

def quoteC : Char := Char.ofNat 34

def bslashC : Char := Char.ofNat 92

def lbraceC : Char := Char.ofNat 123

def rbraceC : Char := Char.ofNat 125

def aposC : Char := Char.ofNat 39

/-- The apostrophe as a string (Python quotes dict keys and strings with it). -/
def aposS : String := String.mk [aposC]

/-- JSON whitespace: space, tab, newline, carriage return. -/
def isWsC (c : Char) : Bool :=
  c = ' ' || c = Char.ofNat 9 || c = Char.ofNat 10 || c = Char.ofNat 13

def skipWs : List Char → List Char
  | [] => []
  | c :: rest => if isWsC c then skipWs rest else c :: rest

def hexVal (c : Char) : Option Nat :=
  if '0' ≤ c ∧ c ≤ '9' then some (c.toNat - 48)
  else if 'a' ≤ c ∧ c ≤ 'f' then some (c.toNat - 87)
  else if 'A' ≤ c ∧ c ≤ 'F' then some (c.toNat - 55)
  else none

/-- Body of a JSON string literal, after the opening quote: handles the
escapes json.loads accepts, rejects raw control characters (strict mode),
combines surrogate pairs written as two \uXXXX escapes. -/
def parseStrBody : Nat → List Char → List Char → Option (String × List Char)
  | 0, _, _ => none
  | _ + 1, [], _ => none
  | fuel + 1, c :: rest, acc =>
    if c = quoteC then some (String.mk acc.reverse, rest)
    else if c = bslashC then
      match rest with
      | [] => none
      | e :: rest2 =>
        if e = quoteC then parseStrBody fuel rest2 (quoteC :: acc)
        else if e = bslashC then parseStrBody fuel rest2 (bslashC :: acc)
        else if e = '/' then parseStrBody fuel rest2 ('/' :: acc)
        else if e = 'b' then parseStrBody fuel rest2 (Char.ofNat 8 :: acc)
        else if e = 'f' then parseStrBody fuel rest2 (Char.ofNat 12 :: acc)
        else if e = 'n' then parseStrBody fuel rest2 (Char.ofNat 10 :: acc)
        else if e = 'r' then parseStrBody fuel rest2 (Char.ofNat 13 :: acc)
        else if e = 't' then parseStrBody fuel rest2 (Char.ofNat 9 :: acc)
        else if e = 'u' then
          match rest2 with
          | h1 :: h2 :: h3 :: h4 :: rest3 =>
            match hexVal h1, hexVal h2, hexVal h3, hexVal h4 with
            | some a, some b, some c2, some d =>
              let n := ((a * 16 + b) * 16 + c2) * 16 + d
              if 55296 ≤ n ∧ n < 56320 then
                match rest3 with
                | e2 :: u2 :: g1 :: g2 :: g3 :: g4 :: rest4 =>
                  if e2 = bslashC ∧ u2 = 'u' then
                    match hexVal g1, hexVal g2, hexVal g3, hexVal g4 with
                    | some a2, some b2, some c3, some d2 =>
                      let m := ((a2 * 16 + b2) * 16 + c3) * 16 + d2
                      if 56320 ≤ m ∧ m < 57344 then
                        parseStrBody fuel rest4
                          (Char.ofNat (65536 + (n - 55296) * 1024 + (m - 56320)) :: acc)
                      else parseStrBody fuel rest3 (Char.ofNat n :: acc)
                    | _, _, _, _ => parseStrBody fuel rest3 (Char.ofNat n :: acc)
                  else parseStrBody fuel rest3 (Char.ofNat n :: acc)
                | _ => parseStrBody fuel rest3 (Char.ofNat n :: acc)
              else parseStrBody fuel rest3 (Char.ofNat n :: acc)
            | _, _, _, _ => none
          | _ => none
        else none
    else if c.toNat < 32 then none
    else parseStrBody fuel rest (c :: acc)

def digitsToNat (ds : List Char) : Nat :=
  ds.foldl (fun acc c => acc * 10 + (c.toNat - 48)) 0

def takeDigits (cs : List Char) : List Char × List Char :=
  (cs.takeWhile Char.isDigit, cs.dropWhile Char.isDigit)

def tenPow (e : Int) : Rat :=
  if 0 ≤ e then ((10 : Rat) ^ e.toNat) else 1 / ((10 : Rat) ^ (-e).toNat)

/-- Fraction and exponent part of a JSON number, given the sign and the
already-parsed integer part. -/
def parseFracExp (neg : Bool) (ip : Nat) (cs : List Char) : Option (Rat × List Char) :=
  let step1 : Option (Rat × List Char) :=
    match cs with
    | c :: rest =>
      if c = '.' then
        let (ds, rest2) := takeDigits rest
        if ds = [] then none
        else some ((ip : Rat) + (digitsToNat ds : Rat) / ((10 : Nat) ^ ds.length : Nat), rest2)
      else some ((ip : Rat), cs)
    | [] => some ((ip : Rat), cs)
  match step1 with
  | none => none
  | some (base, cs2) =>
    let signed := if neg then -base else base
    match cs2 with
    | c :: rest =>
      if c = 'e' ∨ c = 'E' then
        let (esign, rest2) :=
          match rest with
          | d :: r2 => if d = '-' then (true, r2) else if d = '+' then (false, r2) else (false, rest)
          | [] => (false, rest)
        let (ds, rest3) := takeDigits rest2
        if ds = [] then none
        else some (signed * tenPow (if esign then -(digitsToNat ds : Int) else (digitsToNat ds : Int)), rest3)
      else some (signed, cs2)
    | [] => some (signed, cs2)

/-- A JSON number (int part `0 | [1-9][0-9]*`, optional fraction, optional
exponent), exactly the grammar Python's json module uses. -/
def parseNumber (cs : List Char) : Option (Rat × List Char) :=
  let (neg, cs1) :=
    match cs with
    | c :: rest => if c = '-' then (true, rest) else (false, cs)
    | [] => (false, cs)
  match cs1 with
  | [] => none
  | c :: rest =>
    if c = '0' then parseFracExp neg 0 rest
    else if c.isDigit then
      let (ds, rest2) := takeDigits rest
      parseFracExp neg (digitsToNat (c :: ds)) rest2
    else none

def dropLit : List Char → List Char → Option (List Char)
  | [], cs => some cs
  | _ :: _, [] => none
  | l :: ls, c :: cs => if c = l then dropLit ls cs else none

/-- Insert a key into an object being parsed: a duplicate key overwrites the
earlier value in place, as a Python dict does. -/
def objInsert (fs : List (String × JVal)) (k : String) (v : JVal) : List (String × JVal) :=
  match fs with
  | [] => [(k, v)]
  | kv :: rest => if kv.1 = k then (k, v) :: rest else kv :: objInsert rest k v

mutual

/-- One JSON value (recursive descent, fuel bounds the nesting depth). -/
def parseValue : Nat → List Char → Option (JVal × List Char)
  | 0, _ => none
  | fuel + 1, cs0 =>
    let cs := skipWs cs0
    match cs with
    | [] => none
    | c :: rest =>
      if c = quoteC then
        match parseStrBody (rest.length + 1) rest [] with
        | some (s, rest2) => some (.str s, rest2)
        | none => none
      else if c = lbraceC then parseObjRest fuel rest []
      else if c = '[' then parseArrRest fuel rest []
      else if c = 't' then (dropLit ['r', 'u', 'e'] rest).map (fun r => (.bool true, r))
      else if c = 'f' then (dropLit ['a', 'l', 's', 'e'] rest).map (fun r => (.bool false, r))
      else if c = 'n' then (dropLit ['u', 'l', 'l'] rest).map (fun r => (.null, r))
      else if c = 'N' then (dropLit ['a', 'N'] rest).map (fun r => (.nan, r))
      else if c = 'I' then
        (dropLit ['n', 'f', 'i', 'n', 'i', 't', 'y'] rest).map (fun r => (.inf false, r))
      else if c = '-' then
        match rest with
        | 'I' :: rest2 =>
          (dropLit ['n', 'f', 'i', 'n', 'i', 't', 'y'] rest2).map (fun r => (.inf true, r))
        | _ => (parseNumber cs).map (fun p => (.num p.1, p.2))
      else if c.isDigit then (parseNumber cs).map (fun p => (.num p.1, p.2))
      else none

/-- Members of an object, called after the opening brace or after a comma. -/
def parseObjRest : Nat → List Char → List (String × JVal) → Option (JVal × List Char)
  | 0, _, _ => none
  | fuel + 1, cs0, acc =>
    let cs := skipWs cs0
    match cs with
    | [] => none
    | c :: rest =>
      if c = rbraceC ∧ acc.isEmpty then some (.obj [], rest)
      else if c = quoteC then
        match parseStrBody (rest.length + 1) rest [] with
        | none => none
        | some (k, rest2) =>
          match skipWs rest2 with
          | ':' :: rest3 =>
            match parseValue fuel rest3 with
            | none => none
            | some (v, rest4) =>
              let acc2 := objInsert acc k v
              match skipWs rest4 with
              | ',' :: rest5 => parseObjRest fuel rest5 acc2
              | c2 :: rest5 => if c2 = rbraceC then some (.obj acc2, rest5) else none
              | [] => none
          | _ => none
      else none

/-- Elements of an array, called after the opening bracket or after a comma. -/
def parseArrRest : Nat → List Char → List JVal → Option (JVal × List Char)
  | 0, _, _ => none
  | fuel + 1, cs0, acc =>
    let cs := skipWs cs0
    match cs with
    | [] => none
    | c :: _rest =>
      if c = ']' ∧ acc.isEmpty then some (.arr [], cs.tail)
      else
        match parseValue fuel cs with
        | none => none
        | some (v, rest2) =>
          let acc2 := acc ++ [v]
          match skipWs rest2 with
          | ',' :: rest3 => parseArrRest fuel rest3 acc2
          | c2 :: rest3 => if c2 = ']' then some (.arr acc2, rest3) else none
          | [] => none

end

/-- `json.loads`: parse one JSON document; anything but trailing whitespace
after the value is an error (returns `none`, which the agent code observes
as a raised `json.JSONDecodeError`). -/
def jsonLoads (s : String) : Option JVal :=
  match parseValue (s.length + 1) s.data with
  | some (v, rest) => if skipWs rest = [] then some v else none
  | none => none

/-- The name Python gives the type of a value (used in TypeError messages). -/
def pyTypeName : JVal → String
  | .null => "NoneType"
  | .bool _ => "bool"
  | .num q => if q.den = 1 then "int" else "float"
  | .nan => "float"
  | .inf _ => "float"
  | .str _ => "str"
  | .arr _ => "list"
  | .obj _ => "dict"

/-- Substring test, as Python's `needle in haystack` for strings. -/
def strContains (hay needle : String) : Bool :=
  hay.data.tails.any (fun t => needle.data.isPrefixOf t)

/-- Python's `key in dict` for a parsed object: key membership. -/
def pyInObjKey (fs : List (String × JVal)) (key : String) : Bool :=
  fs.any (fun kv => kv.1 = key)

/-- Python's membership test `key in v` for a parsed JSON value: key lookup
for dicts, element equality for lists, substring test for strings, and a
TypeError for anything not iterable (numbers, booleans, None, floats). -/
def pyIn (key : String) (v : JVal) : Except PyErr Bool :=
  match v with
  | .obj fs => .ok (pyInObjKey fs key)
  | .arr xs =>
    .ok (xs.any (fun x => match x with | .str s => s = key | _ => false))
  | .str s => .ok (strContains s key)
  | other =>
    .error (.typeError ("argument of type " ++ aposS ++ pyTypeName other ++ aposS ++
      " is not iterable"))

/-- Python's subscript `v[key]` with a string key: dict lookup (KeyError when
missing); strings and lists demand integer indices; the rest is not
subscriptable. -/
def pyGetItem (v : JVal) (key : String) : Except PyErr JVal :=
  match v with
  | .obj fs =>
    match fs.find? (fun kv => kv.1 = key) with
    | some kv => .ok kv.2
    | none => .error (.keyError key)
  | .str _ => .error (.typeError "string indices must be integers")
  | .arr _ => .error (.typeError "list indices must be integers or slices, not str")
  | other =>
    .error (.typeError (aposS ++ pyTypeName other ++ aposS ++ " object is not subscriptable"))

/-- Python's true division `a / b` on json-loadable values. Booleans behave
as 0/1; dividing by zero (or False) raises ZeroDivisionError; non-numeric
operands raise TypeError. The non-finite floats NaN/Infinity are left out of
the arithmetic model (mapped to TypeError). -/
def pyDiv (a b : JVal) : Except PyErr Rat :=
  let numOf : JVal → Option Rat := fun v =>
    match v with
    | .num q => some q
    | .bool bv => some (if bv then 1 else 0)
    | _ => none
  match numOf a, numOf b with
  | some x, some y => if y = 0 then .error .zeroDivisionError else .ok (x / y)
  | _, _ =>
    .error (.typeError ("unsupported operand type(s) for /: " ++ aposS ++ pyTypeName a ++
      aposS ++ " and " ++ aposS ++ pyTypeName b ++ aposS))

mutual

/-- Python `repr` of a json.loads value, as f-strings render it inside
containers: dicts/lists with single-quoted strings, True/False/None.
(String escaping and the shortest-roundtrip float notation are simplified:
non-integral rationals print as num/den.) -/
def pyRepr : JVal → String
  | .null => "None"
  | .bool b => if b then "True" else "False"
  | .num q => if q.den = 1 then toString q.num else toString q
  | .nan => "nan"
  | .inf neg => if neg then "-inf" else "inf"
  | .str s => aposS ++ s ++ aposS
  | .arr xs => "[" ++ String.intercalate ", " (pyReprList xs) ++ "]"
  | .obj fs => String.mk [lbraceC] ++ String.intercalate ", " (pyReprFields fs) ++ String.mk [rbraceC]

def pyReprList : List JVal → List String
  | [] => []
  | x :: xs => pyRepr x :: pyReprList xs

def pyReprFields : List (String × JVal) → List String
  | [] => []
  | (k, v) :: fs => (aposS ++ k ++ aposS ++ ": " ++ pyRepr v) :: pyReprFields fs

end

/-- Python `str` of a json.loads value, as a top-level f-string renders it
(strings appear bare, containers via repr). -/
def pyStr : JVal → String
  | .str s => s
  | v => pyRepr v

/-- `str(e)` for the exceptions the agent formats into messages
(`str(KeyError(k))` is the repr of the key, hence the quotes). -/
def pyErrStr : PyErr → String
  | .typeError m => m
  | .keyError k => aposS ++ k ++ aposS
  | .zeroDivisionError => "division by zero"
  | .runtimeError m => m
  | .valueError m => m
  | .userError m => m

/-- Format a rational to one decimal place, rounding ties to even, as
Python's `f"{x:.1f}"` does for the progress percentage. -/
def fmt1 (q : Rat) : String :=
  let y := q * 10
  let fl := y.floor
  let fr := y - (fl : Rat)
  let n : Int := if fr > 1 / 2 then fl + 1 else if fr < 1 / 2 then fl else
    if fl % 2 = 0 then fl else fl + 1
  let sign := if n < 0 then "-" else ""
  let m := n.natAbs
  sign ++ toString (m / 10) ++ "." ++ toString (m % 10)

/-- Render a float the way Python str() does for whole-valued floats
(the retry delay 1.0 logs as "1.0"). -/
def fmtFloat (q : Rat) : String :=
  if q.den = 1 then toString q.num ++ ".0" else toString q

/-- One advertised tool, the fields the orchestration code reads
(mcp.Tool's name and description; the input schema and title only flow
into the system prompt). -/
structure ToolInfo where
  name : String
  description : String
deriving DecidableEq

/-- Oracle for one configured backend (the configuration entry plus the
behaviour of its MCP transport, which is outside this repository):
whether `initialize` succeeds, whether releasing its transport resource
fails during cleanup, the tool list its session advertises, and the
result of `session.call_tool` on each retry attempt (attempt-indexed). -/
structure Backend where
  name : String
  initResult : Option PyErr
  releaseFail : Bool
  tools : List ToolInfo
  callTool : JVal → JVal → Nat → Except PyErr JVal

/-- Runtime state of one Server: its backend, the AsyncExitStack contents
(resource name paired with whether releasing it raises), and whether
`self.session` is set. -/
structure ServerState where
  backend : Backend
  resources : List (String × Bool)
  session : Bool

/-- A Server as constructed from its configuration: empty exit stack,
no session. -/
def mkState (b : Backend) : ServerState :=
  { backend := b, resources := [], session := false }

/-- A Server right after a successful `initialize`: the exit stack holds the
transport resources, the session is live. -/
def initedState (b : Backend) : ServerState :=
  { backend := b, resources := [("transport:" ++ b.name, b.releaseFail)], session := true }

/-- Observable events of one orchestration run. -/
inductive Ev where
  | initOk (server : String)
  | initFail (server : String)
  | cleanupCall (server : String)
  | release (server : String) (resource : String)
  | completion (response : String)
  | toolCall (server : String) (tool : String) (attempt : Nat)
  | sleep (seconds : Rat)
  | log (msg : String)
deriving DecidableEq

/-- `self.exit_stack.aclose()`: unwinds every held resource (last-entered
first), emptying the stack even when a release raises; returns whether an
exception escaped the unwind. -/
def Server.aclose (s : ServerState) : ServerState × List Ev × Bool :=
  let rel := s.resources.reverse
  ({ s with resources := [] },
   rel.map (fun r => Ev.release s.backend.name r.1),
   rel.any (fun r => r.2))

/-- The try-block of Server.cleanup: aclose, then clear the session; when
aclose raises, the session assignment is never reached and the exception is
reported to the handler. -/
def Server.cleanupBody (s : ServerState) : ServerState × List Ev × Option PyErr :=
  let (s1, evs, failed) := Server.aclose s
  if failed then (s1, evs, some (.userError ("aclose failed for " ++ s.backend.name)))
  else ({ s1 with session := false }, evs, none)

/-- Server.cleanup: serialized teardown that never raises — any exception
from the body is logged and swallowed. -/
def Server.cleanup (s : ServerState) : ServerState × List Ev :=
  match Server.cleanupBody s with
  | (s1, evs, none) => (s1, Ev.cleanupCall s.backend.name :: evs)
  | (s1, evs, some e) =>
    (s1, Ev.cleanupCall s.backend.name :: evs ++
      [Ev.log ("Error during cleanup of server " ++ s.backend.name ++ ": " ++ pyErrStr e)])

/-- Server.initialize: on transport/handshake success the exit stack owns
the transport and the session is set; on failure the error is logged,
`self.cleanup()` runs, and the exception propagates. -/
def Server.init (s : ServerState) : ServerState × List Ev × Option PyErr :=
  match s.backend.initResult with
  | none =>
    ({ s with
        resources := s.resources ++ [("transport:" ++ s.backend.name, s.backend.releaseFail)],
        session := true },
     [Ev.initOk s.backend.name], none)
  | some e =>
    let logEv := Ev.log ("Failed to initialize server " ++ s.backend.name ++ ": " ++ pyErrStr e)
    let (s1, evs) := Server.cleanup s
    (s1, Ev.initFail s.backend.name :: logEv :: evs, some e)

/-- Server.list_tools: requires a live session, else RuntimeError; returns
the operation set the backend advertises for this session. -/
def Server.listTools (s : ServerState) : Except PyErr (List ToolInfo) :=
  if s.session then .ok s.backend.tools
  else .error (.runtimeError ("Server " ++ s.backend.name ++ " not initialized"))

/-- The retry while-loop of Server.execute_tool. `fuel` is `retries -
attempt`, so the fuel-exhaustion branch coincides with the loop condition
`attempt < retries` turning false (falling off the loop returns None). -/
def Server.execLoop (b : Backend) (tname targs : JVal) (retries : Nat) (delay : Rat) :
    Nat → Nat → List Ev × Except PyErr (Option JVal)
  | _attempt, 0 => ([], .ok none)
  | attempt, fuel + 1 =>
    if attempt < retries then
      let callEvs := [Ev.log ("Executing " ++ pyStr tname ++ "..."),
                      Ev.toolCall b.name (pyStr tname) attempt]
      match b.callTool tname targs attempt with
      | .ok v => (callEvs, .ok (some v))
      | .error e =>
        let a := attempt + 1
        let warnEv := Ev.log ("Error executing tool: " ++ pyErrStr e ++ ". Attempt " ++
          toString a ++ " of " ++ toString retries ++ ".")
        if a < retries then
          let (evs, r) := Server.execLoop b tname targs retries delay a fuel
          (callEvs ++ warnEv :: Ev.log ("Retrying in " ++ fmtFloat delay ++ " seconds...") ::
            Ev.sleep delay :: evs, r)
        else
          (callEvs ++ [warnEv, Ev.log "Max retries reached. Failing."], .error e)
    else ([], .ok none)

/-- Server.execute_tool: requires a live session, then runs the bounded
retry loop (the agent always calls it with the defaults retries=2,
delay=1.0). -/
def Server.execTool (s : ServerState) (tname targs : JVal) (retries : Nat) (delay : Rat) :
    List Ev × Except PyErr (Option JVal) :=
  if s.session then Server.execLoop s.backend tname targs retries delay 0 retries
  else ([], .error (.runtimeError ("Server " ++ s.backend.name ++ " not initialized")))

/-- The interpreted intent of one completion (the spec's ResponseInterpreter
facet of Agent._process_llm_response combined with the loop's `res ==
"end"` check): a structured tool call, a terminate token, or a plain reply. -/
inductive Directive where
  | toolDir (tname targs : JVal)
  | reply (text : String)
  | terminate

/-- The response-interpretation prefix of Agent._process_llm_response:
json.loads, the two membership tests (which can themselves raise, e.g.
TypeError on ints), and extraction of the two fields for the log lines.
A failed parse or a missing field returns the original text; the exact
text "end" is the loop's terminate token. -/
def interpretResponse (resp : String) : List Ev × Except PyErr Directive :=
  let asReply : Directive := if resp = "end" then .terminate else .reply resp
  match jsonLoads resp with
  | none => ([], .ok asReply)
  | some v =>
    match pyIn "tool" v with
    | .error e => ([], .error e)
    | .ok false => ([], .ok asReply)
    | .ok true =>
      match pyIn "arguments" v with
      | .error e => ([], .error e)
      | .ok false => ([], .ok asReply)
      | .ok true =>
        match pyGetItem v "tool" with
        | .error e => ([], .error e)
        | .ok tname =>
          match pyGetItem v "arguments" with
          | .error e => ([Ev.log ("Executing tool: " ++ pyStr tname)], .error e)
          | .ok targs =>
            ([Ev.log ("Executing tool: " ++ pyStr tname),
              Ev.log ("With arguments: " ++ pyStr targs)],
             .ok (.toolDir tname targs))

/-- Does `tool.name == tool_call["tool"]` hold for one advertised tool?
(Python string equality: a str never equals a non-str). -/
def toolNameMatches (name : String) (tname : JVal) : Bool :=
  match tname with
  | .str s => name = s
  | _ => false

/-- `any(tool.name == tool_call["tool"] for tool in tools)`. -/
def advertises (ts : List ToolInfo) (tname : JVal) : Bool :=
  ts.any (fun t => toolNameMatches t.name tname)

/-- The spec's `resolve`: the first server, in registry order, whose
advertised operations include the requested tool name (list_tools raising
RuntimeError on an uninitialized server propagates). -/
def resolveServer : List ServerState → JVal → Except PyErr (Option ServerState)
  | [], _ => .ok none
  | s :: rest, tname =>
    match Server.listTools s with
    | .error e => .error e
    | .ok ts =>
      if advertises ts tname then .ok (some s)
      else resolveServer rest tname

/-- The per-server dispatch loop of Agent._process_llm_response: find the
first server advertising the tool, execute with the default retry policy,
render the result (the progress/total ratio is only logged), catch any
exception from execution or rendering into an "Error executing tool" reply;
falling through every server yields the "No server found" reply. -/
def dispatchTool : List ServerState → JVal → JVal → List Ev × Except PyErr String
  | [], tname, _ => ([], .ok ("No server found with tool: " ++ pyStr tname))
  | s :: rest, tname, targs =>
    match Server.listTools s with
    | .error e => ([], .error e)
    | .ok ts =>
      if advertises ts tname then
        match Server.execTool s tname targs 2 1 with
        | (evs, .error e) =>
          let msg := "Error executing tool: " ++ pyErrStr e
          (evs ++ [Ev.log msg], .ok msg)
        | (evs, .ok none) => (evs, .ok "Tool execution result: None")
        | (evs, .ok (some r)) =>
          match r with
          | .obj fs =>
            if pyInObjKey fs "progress" then
              match pyGetItem (.obj fs) "progress" with
              | .error e =>
                let msg := "Error executing tool: " ++ pyErrStr e
                (evs ++ [Ev.log msg], .ok msg)
              | .ok p =>
                match pyGetItem (.obj fs) "total" with
                | .error e =>
                  let msg := "Error executing tool: " ++ pyErrStr e
                  (evs ++ [Ev.log msg], .ok msg)
                | .ok t =>
                  match pyDiv p t with
                  | .error e =>
                    let msg := "Error executing tool: " ++ pyErrStr e
                    (evs ++ [Ev.log msg], .ok msg)
                  | .ok ratio =>
                    (evs ++ [Ev.log ("Progress: " ++ pyStr p ++ "/" ++ pyStr t ++
                        " (" ++ fmt1 (ratio * 100) ++ "%)")],
                     .ok ("Tool execution result: " ++ pyStr (.obj fs)))
            else (evs, .ok ("Tool execution result: " ++ pyStr (.obj fs)))
          | other => (evs, .ok ("Tool execution result: " ++ pyStr other))
      else
        dispatchTool rest tname targs

/-- Agent._process_llm_response: interpret the completion, dispatch tool
directives across the servers, pass plain replies (and the "end" token)
through unchanged. -/
def processResponse (servers : List ServerState) (resp : String) :
    List Ev × Except PyErr String :=
  match interpretResponse resp with
  | (evs, .error e) => (evs, .error e)
  | (evs, .ok .terminate) => (evs, .ok "end")
  | (evs, .ok (.reply s)) => (evs, .ok s)
  | (evs, .ok (.toolDir n a)) =>
    let (evs2, r) := dispatchTool servers n a
    (evs ++ evs2, r)

/-- Agent.cleanup_servers: cleanup on every server, reverse registry order,
individual failures logged rather than fatal (Server.cleanup already never
raises). -/
def cleanupServers (ss : List ServerState) : List ServerState × List Ev :=
  let pairs := ss.map Server.cleanup
  (pairs.map Prod.fst, ((pairs.map Prod.snd).reverse).flatten)

/-- The initialization loop at the top of Agent.send: initialize in registry
order; on the first failure log, tear everything down via cleanup_servers,
and signal failure (the code's early `return`). -/
def initLoop : List ServerState → List ServerState → List ServerState × List Ev × Bool
  | done, [] => (done, [], true)
  | done, s :: rest =>
    match Server.init s with
    | (s', evs, none) =>
      let (fin, evs2, ok) := initLoop (done ++ [s']) rest
      (fin, evs ++ evs2, ok)
    | (s', evs, some e) =>
      let all := done ++ s' :: rest
      let (all2, evs2) := cleanupServers all
      (all2, evs ++ Ev.log ("Failed to initialize server: " ++ pyErrStr e) :: evs2, false)

/-- list_tools over every server, aggregated in registry order. -/
def listAllTools : List ServerState → Except PyErr (List ToolInfo)
  | [] => .ok []
  | s :: rest =>
    match Server.listTools s with
    | .error e => .error e
    | .ok ts =>
      match listAllTools rest with
      | .error e => .error e
      | .ok ts2 => .ok (ts ++ ts2)

/-- The serialized tool description embedded in the system message
(Tool.model_dump_json, rendered from the fields the model carries). -/
def toolDumpJson (t : ToolInfo) : String :=
  String.mk [lbraceC] ++ String.mk [quoteC] ++ "name" ++ String.mk [quoteC] ++ ": " ++
    String.mk [quoteC] ++ t.name ++ String.mk [quoteC] ++ ", " ++
    String.mk [quoteC] ++ "description" ++ String.mk [quoteC] ++ ": " ++
    String.mk [quoteC] ++ t.description ++ String.mk [quoteC] ++ String.mk [rbraceC]

/-- The system preamble Agent.send builds from the discovered tools: the
tool descriptions plus the fixed behavioural instructions (tool calls as a
single JSON object, free text otherwise, the literal "end" to terminate). -/
def systemMessage (tools : List ToolInfo) : String :=
  "You are a helpful assistant with access to these tools:\n\n" ++
  String.intercalate "\n" (tools.map toolDumpJson) ++
  "\n\nChoose the appropriate tool based on the question; reply with exactly one JSON object " ++
  String.mk [lbraceC] ++ "tool, arguments" ++ String.mk [rbraceC] ++
  " to invoke a tool; otherwise reply in natural language; reply with the literal text " ++
  String.mk [quoteC] ++ "end" ++ String.mk [quoteC] ++ " to terminate."

/-- How one run of Agent.send ends: still looping when the fuel runs out,
aborted by an uncaught exception, or returned (None after an init failure,
the captured final_res otherwise). -/
inductive SendRes where
  | timeout
  | raised (e : PyErr)
  | returned (v : Option String)
deriving DecidableEq

/-- The while-loop of Agent.send: call the completion function, process the
response, stop returning final_res when the processed result is "end",
otherwise log, append to the transcript and continue. `fuel` bounds how
many turns this run is observed for (the source loop is unbounded). -/
def convLoop (ss : List ServerState) (llm : Nat → String) :
    Nat → String → List (String × String) → Nat → List Ev × List (String × String) × SendRes
  | _, _, msgs, 0 => ([], msgs, .timeout)
  | turn, finalRes, msgs, fuel + 1 =>
    let resp := llm turn
    let (evs, r) := processResponse ss resp
    match r with
    | .error e => (Ev.completion resp :: evs, msgs, .raised e)
    | .ok res =>
      if res = "end" then (Ev.completion resp :: evs, msgs, .returned (some finalRes))
      else
        let (evs2, msgs2, r2) :=
          convLoop ss llm (turn + 1) res (msgs ++ [("assistant", res)]) fuel
        (Ev.completion resp :: evs ++ Ev.log ("LLM response: " ++ res) :: evs2, msgs2, r2)

/-- Agent.send: initialize all servers (an init failure tears everything
down, returns None, and the `finally` tears down once more), aggregate the
tools, seed the transcript, run the conversation loop, and on any exit
other than the still-running timeout run cleanup_servers (the `finally`). -/
def agentSend (ss : List ServerState) (llm : Nat → String) (msg : String) (fuel : Nat) :
    List ServerState × List Ev × List (String × String) × SendRes :=
  let (ss1, evs1, ok) := initLoop [] ss
  if ok then
    match listAllTools ss1 with
    | .error e =>
      let (ss2, evs2) := cleanupServers ss1
      (ss2, evs1 ++ evs2, [], .raised e)
    | .ok tools =>
      let msgs0 := [("system", systemMessage tools), ("user", msg)]
      let (evs2, msgs, r) := convLoop ss1 llm 0 "" msgs0 fuel
      match r with
      | .timeout => (ss1, evs1 ++ evs2, msgs, .timeout)
      | r2 =>
        let (ss2, evs3) := cleanupServers ss1
        (ss2, evs1 ++ evs2 ++ evs3, msgs, r2)
  else
    let (ss2, evs2) := cleanupServers ss1
    (ss2, evs1 ++ evs2, [], .returned none)

/-- The servers a run touches, projected from the result of agentSend. -/
def sendRes (out : List ServerState × List Ev × List (String × String) × SendRes) : SendRes :=
  out.2.2.2

def sendEvs (out : List ServerState × List Ev × List (String × String) × SendRes) : List Ev :=
  out.2.1

def sendMsgs (out : List ServerState × List Ev × List (String × String) × SendRes) :
    List (String × String) :=
  out.2.2.1

/-- The cleanup invocations in a trace, in order, by server name. -/
def cleanupCallNames (evs : List Ev) : List String :=
  evs.filterMap (fun e => match e with | Ev.cleanupCall n => some n | _ => none)

/-- The completion calls in a trace, in order. -/
def completionsList (evs : List Ev) : List String :=
  evs.filterMap (fun e => match e with | Ev.completion r => some r | _ => none)

/-- The tool-call attempts in a trace: (server, tool, attempt index). -/
def toolCallsList (evs : List Ev) : List (String × String × Nat) :=
  evs.filterMap (fun e => match e with | Ev.toolCall s t a => some (s, t, a) | _ => none)

/-- The sleeps in a trace, in order, with their durations. -/
def sleepsList (evs : List Ev) : List Rat :=
  evs.filterMap (fun e => match e with | Ev.sleep d => some d | _ => none)

/-- The result component of interpretResponse. -/
def interpretVal (resp : String) : Except PyErr Directive :=
  (interpretResponse resp).2

/-- The result component of processResponse. -/
def procVal (servers : List ServerState) (resp : String) : Except PyErr String :=
  (processResponse servers resp).2

/-- First value bound to a key in a parsed object. -/
def lookupField (fs : List (String × JVal)) (k : String) : Option JVal :=
  (fs.find? (fun kv => kv.1 = k)).map (fun kv => kv.2)

/-- Does the server's advertised tool list contain this name? -/
def serverHasTool (s : ServerState) (n : String) : Bool :=
  advertises s.backend.tools (.str n)

/-- The reply captured in final_res when the loop sees the terminate token
after k turns counted from `turn`: the processed reply of the turn before,
or the incoming finalRes when the terminate token arrives first. -/
def lastResFrom (ss : List ServerState) (llm : Nat → String) (turn : Nat)
    (finalRes : String) : Nat → String
  | 0 => finalRes
  | k + 1 =>
    match (processResponse ss (llm (turn + k))).2 with
    | .ok r => r
    | .error _ => finalRes

/-- Events that the response-processing path can emit: log lines, tool-call
attempts and retry sleeps — never cleanups, initializations or completion
calls. -/
def isLoopEv : Ev → Bool
  | .log _ => true
  | .toolCall _ _ _ => true
  | .sleep _ => true
  | _ => false

/- Concrete fixtures used by the closed witnesses and counterexamples. -/

/-- A healthy backend exposing list_files whose calls always succeed. -/
def bkFiles : Backend :=
  { name := "files", initResult := none, releaseFail := false,
    tools := [⟨"list_files", "List all files"⟩],
    callTool := fun _ _ _ => .ok (.str "a.py b.py") }

/-- A backend whose initialize always fails. -/
def bkBad : Backend :=
  { name := "badsrv", initResult := some (.userError "boom"), releaseFail := false,
    tools := [], callTool := fun _ _ _ => .error (.userError "unreachable") }

/-- A backend whose tool calls always fail (for the retry policy). -/
def bkFlaky : Backend :=
  { name := "flaky", initResult := none, releaseFail := false,
    tools := [⟨"work", "Does work"⟩],
    callTool := fun _ _ n => .error (.userError ("fail" ++ toString n)) }

/-- A backend whose tool reports progress 1 of total 2. -/
def bkProg : Backend :=
  { name := "prog", initResult := none, releaseFail := false,
    tools := [⟨"work", "Does work"⟩],
    callTool := fun _ _ _ => .ok (.obj [("progress", .num 1), ("total", .num 2)]) }

/-- A backend whose tool reports progress but no total. -/
def bkProgNoTotal : Backend :=
  { name := "prognt", initResult := none, releaseFail := false,
    tools := [⟨"work", "Does work"⟩],
    callTool := fun _ _ _ => .ok (.obj [("progress", .num 1)]) }

/-- A backend whose tool reports total zero. -/
def bkProgZero : Backend :=
  { name := "progz", initResult := none, releaseFail := false,
    tools := [⟨"work", "Does work"⟩],
    callTool := fun _ _ _ => .ok (.obj [("progress", .num 1), ("total", .num 0)]) }

/-- The structured tool directive for list_files used across the examples. -/
def dirListFiles : String :=
  String.mk [lbraceC] ++ String.mk [quoteC] ++ "tool" ++ String.mk [quoteC] ++ ": " ++
  String.mk [quoteC] ++ "list_files" ++ String.mk [quoteC] ++ ", " ++
  String.mk [quoteC] ++ "arguments" ++ String.mk [quoteC] ++ ": " ++
  String.mk [lbraceC] ++ String.mk [quoteC] ++ "path" ++ String.mk [quoteC] ++ ": " ++
  String.mk [quoteC] ++ "." ++ String.mk [quoteC] ++ String.mk [rbraceC] ++
  String.mk [rbraceC]

/-- A structured directive for the tool named work. -/
def dirWork : String :=
  String.mk [lbraceC] ++ String.mk [quoteC] ++ "tool" ++ String.mk [quoteC] ++ ": " ++
  String.mk [quoteC] ++ "work" ++ String.mk [quoteC] ++ ", " ++
  String.mk [quoteC] ++ "arguments" ++ String.mk [quoteC] ++ ": " ++
  String.mk [lbraceC] ++ String.mk [rbraceC] ++ String.mk [rbraceC]

/-- A structured directive for a tool nobody advertises. -/
def dirMissing : String :=
  String.mk [lbraceC] ++ String.mk [quoteC] ++ "tool" ++ String.mk [quoteC] ++ ": " ++
  String.mk [quoteC] ++ "missing_tool" ++ String.mk [quoteC] ++ ", " ++
  String.mk [quoteC] ++ "arguments" ++ String.mk [quoteC] ++ ": " ++
  String.mk [lbraceC] ++ String.mk [rbraceC] ++ String.mk [rbraceC]

/-- The completion oracle that issues the list_files directive, then "end". -/
def llmFilesThenEnd : Nat → String :=
  fun n => if n = 0 then dirListFiles else "end"

/-- Claim C3: wrapped with retries=2 around a call that fails on every
attempt, execute_tool performs exactly 2 attempts with exactly 1
inter-attempt delay of the configured duration (default 1.0, fixed), and
propagates the failure of the last attempt unchanged (no wrapping). -/
theorem claim_C3 (s : ServerState) (tname targs : JVal) (d : Rat) (errs : Nat → PyErr)
    (hs : s.session = true)
    (hfail : ∀ n, s.backend.callTool tname targs n = .error (errs n)) :
    (Server.execTool s tname targs 2 d).2 = .error (errs 1) ∧
    toolCallsList (Server.execTool s tname targs 2 d).1 =
      [(s.backend.name, pyStr tname, 0), (s.backend.name, pyStr tname, 1)] ∧
    sleepsList (Server.execTool s tname targs 2 d).1 = [d] := by
  have h0 := hfail 0
  have h1 := hfail 1
  simp [Server.execTool, hs, Server.execLoop, h0, h1, toolCallsList, sleepsList]

/-- Witness for C3 at a concrete always-failing backend with the default
delay 1.0: two attempts, one sleep of 1.0, the second attempt's own error
propagated. -/
theorem claim_C3_witness :
    (Server.execTool (initedState bkFlaky) (.str "work") (.obj []) 2 1).2 =
      .error (.userError "fail1") ∧
    toolCallsList (Server.execTool (initedState bkFlaky) (.str "work") (.obj []) 2 1).1 =
      [("flaky", "work", 0), ("flaky", "work", 1)] ∧
    sleepsList (Server.execTool (initedState bkFlaky) (.str "work") (.obj []) 2 1).1 = [1] :=
  claim_C3 (initedState bkFlaky) (.str "work") (.obj []) 1
    (fun n => .userError ("fail" ++ toString n)) rfl (fun _ => rfl)

/-- Claim C8: on any connection state, running cleanup twice in succession
leaves the connection idle (no session, empty exit stack) and the second
call performs no release and reports no error — cleanup is idempotent and
its failures never escape (the handler converts them to a log line). -/
theorem claim_C8 (s : ServerState) :
    (Server.cleanup (Server.cleanup s).1).2 = [Ev.cleanupCall s.backend.name] ∧
    (Server.cleanup (Server.cleanup s).1).1.session = false ∧
    (Server.cleanup (Server.cleanup s).1).1.resources = [] ∧
    (Server.cleanup s).1.resources = [] := by
  simp only [Server.cleanup, Server.cleanupBody, Server.aclose]
  by_cases hf : s.resources.reverse.any (fun r => r.2) = true <;>
    simp [hf]

theorem listTools_of_session (s : ServerState) (hs : s.session = true) :
    Server.listTools s = .ok s.backend.tools := by
  simp [Server.listTools, hs]

/-- Claim C7: dispatch resolves a tool name to the first backend in registry
order that advertises it — earlier non-advertising backends are skipped,
and the dispatch outcome coincides with dispatching from that backend on;
resolution is a pure function of the server list, hence deterministic. -/
theorem claim_C7 (pre post : List ServerState) (s : ServerState) (n : String) (args : JVal)
    (hpre : ∀ x ∈ pre, x.session = true ∧ serverHasTool x n = false)
    (hs : s.session = true) (hhas : serverHasTool s n = true) :
    resolveServer (pre ++ s :: post) (.str n) = .ok (some s) ∧
    dispatchTool (pre ++ s :: post) (.str n) args = dispatchTool (s :: post) (.str n) args := by
  simp only [serverHasTool] at hhas
  induction pre with
  | nil =>
    refine ⟨?_, rfl⟩
    simp [resolveServer, listTools_of_session s hs, hhas]
  | cons x xs ih =>
    obtain ⟨hx1, hx2⟩ := hpre x (by simp)
    simp only [serverHasTool] at hx2
    have ih2 := ih (fun y hy => hpre y (by simp [hy]))
    constructor
    · simpa [resolveServer, listTools_of_session x hx1, hx2] using ih2.1
    · simpa [dispatchTool, listTools_of_session x hx1, hx2] using ih2.2

/-- Witness for C7: with a non-advertising backend ahead of two that both
advertise list_files, resolution picks the middle one (first match), and
dispatch from the full list equals dispatch from it on. -/
theorem claim_C7_witness :
    resolveServer [initedState bkFlaky, initedState bkFiles, initedState bkFiles]
      (.str "list_files") = .ok (some (initedState bkFiles)) ∧
    dispatchTool [initedState bkFlaky, initedState bkFiles, initedState bkFiles]
      (.str "list_files") (.obj []) =
    dispatchTool [initedState bkFiles, initedState bkFiles] (.str "list_files") (.obj []) :=
  claim_C7 [initedState bkFlaky] [initedState bkFiles] (initedState bkFiles) "list_files"
    (.obj []) (by intro x hx; simp at hx; subst hx; exact ⟨rfl, rfl⟩) rfl rfl

theorem pyInObjKey_of_lookup_some (fs : List (String × JVal)) (k : String) (v : JVal)
    (h : lookupField fs k = some v) : pyInObjKey fs k = true := by
  simp only [lookupField, Option.map_eq_some'] at h
  obtain ⟨kv, hfind, _⟩ := h
  simp only [pyInObjKey, List.any_eq_true]
  exact ⟨kv, List.mem_of_find?_eq_some hfind,
    @List.find?_some _ (fun kv => decide (kv.1 = k)) kv fs hfind⟩

theorem pyInObjKey_of_lookup_none (fs : List (String × JVal)) (k : String)
    (h : lookupField fs k = none) : pyInObjKey fs k = false := by
  simp only [lookupField, Option.map_eq_none'] at h
  simp only [pyInObjKey, List.any_eq_false]
  intro kv hkv
  exact List.find?_eq_none.mp h kv hkv

theorem jsonLoads_end : jsonLoads "end" = none := by rfl

/-- Claim C4: a completion that parses to an object carrying both "tool"
and "arguments" is interpreted as a tool directive with exactly those two
fields; a completion that fails to parse, or parses to an object missing a
required field, is passed through as a plain reply equal to the input; the
exact input "end" is the terminate token. -/
theorem claim_C4 (s : String) :
    (∀ fs tname targs, jsonLoads s = some (.obj fs) →
      lookupField fs "tool" = some tname → (∃ nm, tname = JVal.str nm) →
      lookupField fs "arguments" = some targs → (∃ afs, targs = JVal.obj afs) →
      interpretVal s = .ok (.toolDir tname targs)) ∧
    (jsonLoads s = none → s ≠ "end" → interpretVal s = .ok (.reply s)) ∧
    (∀ fs, jsonLoads s = some (.obj fs) →
      lookupField fs "tool" = none ∨ lookupField fs "arguments" = none →
      interpretVal s = .ok (.reply s)) ∧
    (s = "end" → interpretVal s = .ok .terminate) := by
  refine ⟨?_, ?_, ?_, ?_⟩
  · intro fs tname targs hj htool _ hargs _
    have hin1 := pyInObjKey_of_lookup_some fs "tool" tname htool
    have hin2 := pyInObjKey_of_lookup_some fs "arguments" targs hargs
    simp only [lookupField, Option.map_eq_some'] at htool hargs
    obtain ⟨kv1, hfind1, hv1⟩ := htool
    obtain ⟨kv2, hfind2, hv2⟩ := hargs
    simp [interpretVal, interpretResponse, hj, pyIn, pyGetItem, hin1, hin2, hfind1, hfind2,
      hv1, hv2]
  · intro hj hne
    simp [interpretVal, interpretResponse, hj, hne]
  · intro fs hj hmiss
    have hne : s ≠ "end" := by
      intro he
      rw [he, jsonLoads_end] at hj
      exact Option.noConfusion hj
    rcases hmiss with hm | hm
    · have hin := pyInObjKey_of_lookup_none fs "tool" hm
      simp [interpretVal, interpretResponse, hj, pyIn, hin, hne]
    · have hin := pyInObjKey_of_lookup_none fs "arguments" hm
      by_cases h1 : pyInObjKey fs "tool" = true <;>
        simp [interpretVal, interpretResponse, hj, pyIn, hin, hne, h1]
  · intro he
    subst he
    simp [interpretVal, interpretResponse, jsonLoads_end]

/-- Witness for C4 at the three inputs of the spec example plus a
missing-field object: the structured directive yields the tool directive
with its two fields, free text comes back unchanged, an object lacking
"arguments" comes back unchanged, and "end" terminates. -/
theorem claim_C4_witness :
    interpretVal dirListFiles =
      .ok (.toolDir (.str "list_files") (.obj [("path", .str ".")])) ∧
    interpretVal "Hello there" = .ok (.reply "Hello there") ∧
    interpretVal "end" = .ok .terminate := by
  refine ⟨?_, ?_, ?_⟩
  · exact (claim_C4 dirListFiles).1 [("tool", .str "list_files"),
      ("arguments", .obj [("path", .str ".")])] (.str "list_files") (.obj [("path", .str ".")])
      (by rfl) (by rfl) ⟨"list_files", rfl⟩ (by rfl) ⟨[("path", .str ".")], rfl⟩
  · exact (claim_C4 "Hello there").2.1 (by rfl) (by decide)
  · exact (claim_C4 "end").2.2.2 rfl

/-- Claim C10: when a tool call succeeds but its dict result has "progress"
without "total" (or with total 0), the KeyError (or ZeroDivisionError)
raised while computing the percentage is caught by the surrounding handler,
so the successful result is discarded and an "Error executing tool" reply
is produced instead. -/
theorem claim_C10 (s : ServerState) (rest : List ServerState) (n : String)
    (args : JVal) (fs : List (String × JVal)) (p : JVal)
    (hs : s.session = true) (hmatch : serverHasTool s n = true)
    (hcall : s.backend.callTool (.str n) args 0 = .ok (.obj fs))
    (hprog : lookupField fs "progress" = some p) :
    (lookupField fs "total" = none →
      (dispatchTool (s :: rest) (.str n) args).2 =
        .ok ("Error executing tool: " ++ pyErrStr (.keyError "total"))) ∧
    (∀ pv, p = .num pv → lookupField fs "total" = some (.num 0) →
      (dispatchTool (s :: rest) (.str n) args).2 =
        .ok ("Error executing tool: " ++ pyErrStr .zeroDivisionError)) := by
  simp only [serverHasTool] at hmatch
  have hinp := pyInObjKey_of_lookup_some fs "progress" p hprog
  simp only [lookupField, Option.map_eq_some'] at hprog
  obtain ⟨kvp, hfindp, hvp⟩ := hprog
  constructor
  · intro htot
    simp only [lookupField, Option.map_eq_none'] at htot
    simp [dispatchTool, listTools_of_session s hs, hmatch,
      Server.execTool, hs, Server.execLoop, hcall, hinp, pyGetItem, hfindp, htot]
  · intro pv hpv htot
    simp only [lookupField, Option.map_eq_some'] at htot
    obtain ⟨kvt, hfindt, hvt⟩ := htot
    subst hpv
    simp [dispatchTool, listTools_of_session s hs, hmatch,
      Server.execTool, hs, Server.execLoop, hcall, hinp, pyGetItem, hfindp, hfindt, hvp, hvt,
      pyDiv]

/-- Counterexample to C5 as stated: the tool of bkProg succeeds with result
carrying progress 1 and total 2, yet the reply string produced for the
transcript is the bare formatted result — it contains neither a percent
sign nor the ratio value 50.0, so no progress-ratio information is
attached to it. -/
theorem claim_C5_counterexample :
    procVal [initedState bkProg] dirWork =
      .ok ("Tool execution result: " ++ pyStr (.obj [("progress", .num 1), ("total", .num 2)])) ∧
    strContains ("Tool execution result: " ++
      pyStr (.obj [("progress", .num 1), ("total", .num 2)])) "%" = false ∧
    strContains ("Tool execution result: " ++
      pyStr (.obj [("progress", .num 1), ("total", .num 2)])) "50" = false := by
  exact ⟨rfl, rfl, rfl⟩

/-- Claim C5, amended: for a successful tool invocation whose dict result
carries numeric progress/total fields (total nonzero), the progress-ratio
information is only emitted on the logger; the reply string appended to the
transcript is the bare formatted result, without the ratio. -/
theorem claim_C5 (s : ServerState) (rest : List ServerState) (n : String) (args : JVal)
    (fs : List (String × JVal)) (pv tv : Rat)
    (hs : s.session = true) (hmatch : serverHasTool s n = true)
    (hcall : s.backend.callTool (.str n) args 0 = .ok (.obj fs))
    (hprog : lookupField fs "progress" = some (.num pv))
    (htot : lookupField fs "total" = some (.num tv)) (htv : tv ≠ 0) :
    (dispatchTool (s :: rest) (.str n) args).2 =
      .ok ("Tool execution result: " ++ pyStr (.obj fs)) ∧
    Ev.log ("Progress: " ++ pyStr (.num pv) ++ "/" ++ pyStr (.num tv) ++ " (" ++
        fmt1 (pv / tv * 100) ++ "%)") ∈ (dispatchTool (s :: rest) (.str n) args).1 := by
  simp only [serverHasTool] at hmatch
  have hinp := pyInObjKey_of_lookup_some fs "progress" (.num pv) hprog
  simp only [lookupField, Option.map_eq_some'] at hprog htot
  obtain ⟨kvp, hfindp, hvp⟩ := hprog
  obtain ⟨kvt, hfindt, hvt⟩ := htot
  constructor <;>
    simp [dispatchTool, listTools_of_session s hs, hmatch, Server.execTool, hs,
      Server.execLoop, hcall, hinp, pyGetItem, hfindp, hfindt, hvp, hvt, pyDiv, htv]

/-- Witness for C5 (amended) at bkProg: reply is the bare formatted dict,
the 50.0% ratio appears in a log event. -/
theorem claim_C5_witness :
    (dispatchTool [initedState bkProg] (.str "work") (.obj [])).2 =
      .ok ("Tool execution result: " ++
        pyStr (.obj [("progress", .num 1), ("total", .num 2)])) ∧
    Ev.log ("Progress: " ++ pyStr (.num 1) ++ "/" ++ pyStr (.num 2) ++ " (" ++
        fmt1 (1 / 2 * 100) ++ "%)") ∈
      (dispatchTool [initedState bkProg] (.str "work") (.obj [])).1 :=
  claim_C5 (initedState bkProg) [] "work" (.obj [])
    [("progress", .num 1), ("total", .num 2)] 1 2 rfl rfl rfl rfl rfl (by norm_num)

/-- Counterexample to C6 as stated: dispatching the directive for the
unadvertised tool missing_tool yields the reply "No server found with
tool: missing_tool", which does not contain the claimed literal text
"No backend found with tool:". -/
theorem claim_C6_counterexample :
    procVal [initedState bkFiles] dirMissing =
      .ok "No server found with tool: missing_tool" ∧
    strContains "No server found with tool: missing_tool"
      "No backend found with tool:" = false := by
  exact ⟨rfl, rfl⟩

/-- Claim C6, amended: a directive whose tool name no connected backend
advertises produces the reply "No server found with tool: <name>" (the
code's literal text, where the claim said "No backend found with tool:"),
and the loop does not abort — a processed non-"end" reply makes the loop
log it, append it to the transcript as an assistant message, and continue
with the next completion call. -/
theorem claim_C6 (servers : List ServerState) (n : String) (args : JVal)
    (hall : ∀ x ∈ servers, x.session = true ∧ serverHasTool x n = false) :
    dispatchTool servers (.str n) args =
      ([], .ok ("No server found with tool: " ++ n)) ∧
    (∀ (ss : List ServerState) (llm : Nat → String) (turn : Nat) (finalRes : String)
       (msgs : List (String × String)) (fuel : Nat) (r : String),
      (processResponse ss (llm turn)).2 = .ok r → r ≠ "end" →
      convLoop ss llm turn finalRes msgs (fuel + 1) =
        (Ev.completion (llm turn) :: (processResponse ss (llm turn)).1 ++
           Ev.log ("LLM response: " ++ r) ::
             (convLoop ss llm (turn + 1) r (msgs ++ [("assistant", r)]) fuel).1,
         (convLoop ss llm (turn + 1) r (msgs ++ [("assistant", r)]) fuel).2)) := by
  constructor
  · induction servers with
    | nil => simp [dispatchTool, pyStr, pyRepr]
    | cons x xs ih =>
      obtain ⟨hx1, hx2⟩ := hall x (by simp)
      simp only [serverHasTool] at hx2
      simpa [dispatchTool, listTools_of_session x hx1, hx2]
        using ih (fun y hy => hall y (by simp [hy]))
  · intro ss llm turn finalRes msgs fuel r hr hne
    simp [convLoop, hr, hne]

/-- Witness for C6 (amended): with only bkFiles connected, the missing_tool
directive resolves to no backend, the reply has the code's literal text,
and a run receiving that directive then "end" keeps going — it makes the
second completion call and returns the synthesized reply. -/
theorem claim_C6_witness :
    dispatchTool [initedState bkFiles] (.str "missing_tool") (.obj []) =
      ([], .ok ("No server found with tool: " ++ "missing_tool")) ∧
    convLoop [initedState bkFiles] (fun k => if k = 0 then dirMissing else "end") 0 "" []
        (1 + 1) =
      (Ev.completion dirMissing ::
         (processResponse [initedState bkFiles] dirMissing).1 ++
         Ev.log ("LLM response: " ++ "No server found with tool: missing_tool") ::
           (convLoop [initedState bkFiles] (fun k => if k = 0 then dirMissing else "end") 1
             "No server found with tool: missing_tool"
             ([] ++ [("assistant", "No server found with tool: missing_tool")]) 1).1,
       (convLoop [initedState bkFiles] (fun k => if k = 0 then dirMissing else "end") 1
         "No server found with tool: missing_tool"
         ([] ++ [("assistant", "No server found with tool: missing_tool")]) 1).2) :=
  ⟨(claim_C6 [initedState bkFiles] "missing_tool" (.obj [])
      (by intro x hx; simp at hx; subst hx; exact ⟨rfl, rfl⟩)).1,
   (claim_C6 [initedState bkFiles] "missing_tool" (.obj [])
      (by intro x hx; simp at hx; subst hx; exact ⟨rfl, rfl⟩)).2
     [initedState bkFiles] (fun k => if k = 0 then dirMissing else "end") 0 "" [] 1
     "No server found with tool: missing_tool" (by rfl) (by decide)⟩

theorem cleanupCallNames_of_loopish (evs : List Ev) (h : ∀ e ∈ evs, isLoopEv e = true) :
    cleanupCallNames evs = [] := by
  rw [cleanupCallNames, List.filterMap_eq_nil_iff]
  intro e he
  have := h e he
  cases e <;> simp_all [isLoopEv]

theorem completionsList_of_loopish (evs : List Ev) (h : ∀ e ∈ evs, isLoopEv e = true) :
    completionsList evs = [] := by
  rw [completionsList, List.filterMap_eq_nil_iff]
  intro e he
  have := h e he
  cases e <;> simp_all [isLoopEv]

theorem execLoop_evs_loopish (b : Backend) (tname targs : JVal) (retries : Nat) (delay : Rat) :
    ∀ (fuel attempt : Nat), ∀ e ∈ (Server.execLoop b tname targs retries delay attempt fuel).1,
      isLoopEv e = true := by
  intro fuel
  induction fuel with
  | zero => intro attempt e he; simp [Server.execLoop] at he
  | succ f ih =>
    intro attempt e he
    simp only [Server.execLoop] at he
    by_cases h : attempt < retries
    · simp only [h, if_true] at he
      cases hc : b.callTool tname targs attempt with
      | ok v =>
        rw [hc] at he
        simp at he
        rcases he with he | he <;> simp [he, isLoopEv]
      | error er =>
        rw [hc] at he
        by_cases h2 : attempt + 1 < retries
        · simp only [h2, if_true] at he
          rcases hrec : Server.execLoop b tname targs retries delay (attempt + 1) f
            with ⟨evs, r⟩
          rw [hrec] at he
          simp at he
          rcases he with he | he | he | he | he | he
          all_goals (first
            | (subst he; simp [isLoopEv])
            | (exact (by simpa [hrec] using ih (attempt + 1) e (by simp [hrec, he]))))
        · simp only [h2, if_false] at he
          simp at he
          rcases he with he | he | he | he <;> simp [he, isLoopEv]
    · simp [h] at he

theorem execTool_evs_loopish (s : ServerState) (tname targs : JVal) (retries : Nat)
    (delay : Rat) : ∀ e ∈ (Server.execTool s tname targs retries delay).1, isLoopEv e = true := by
  intro e he
  simp only [Server.execTool] at he
  by_cases h : s.session = true
  · rw [if_pos h] at he
    exact execLoop_evs_loopish s.backend tname targs retries delay retries 0 e he
  · rw [if_neg h] at he
    simp at he

theorem dispatchTool_evs_loopish (tname targs : JVal) :
    ∀ servers, ∀ e ∈ (dispatchTool servers tname targs).1, isLoopEv e = true := by
  intro servers
  induction servers with
  | nil => intro e he; simp [dispatchTool] at he
  | cons s rest ih =>
    intro e he
    simp only [dispatchTool] at he
    cases hlt : Server.listTools s with
    | error er => rw [hlt] at he; simp at he
    | ok ts =>
      rw [hlt] at he
      by_cases hadv : advertises ts tname = true
      · simp only [hadv, if_true] at he
        rcases het : Server.execTool s tname targs 2 1 with ⟨evs, r⟩
        have hevs : ∀ x ∈ evs, isLoopEv x = true := by
          intro x hx
          exact execTool_evs_loopish s tname targs 2 1 x (by rw [het]; exact hx)
        rw [het] at he
        cases r with
        | error er =>
          simp at he
          rcases he with he | he
          · exact hevs e he
          · simp [he, isLoopEv]
        | ok ro =>
          cases ro with
          | none => exact hevs e he
          | some rv =>
            cases rv with
            | obj fs =>
              by_cases hp : pyInObjKey fs "progress" = true
              · simp only [hp, if_true] at he
                rcases hg1 : pyGetItem (.obj fs) "progress" with e1 | p
                · simp only [hg1] at he
                  simp at he
                  rcases he with he | he
                  · exact hevs e he
                  · simp [he, isLoopEv]
                · rcases hg2 : pyGetItem (.obj fs) "total" with e2 | t
                  · simp only [hg1, hg2] at he
                    simp at he
                    rcases he with he | he
                    · exact hevs e he
                    · simp [he, isLoopEv]
                  · rcases hdv : pyDiv p t with e3 | ratio
                    · simp only [hg1, hg2, hdv] at he
                      simp at he
                      rcases he with he | he
                      · exact hevs e he
                      · simp [he, isLoopEv]
                    · simp only [hg1, hg2, hdv] at he
                      simp at he
                      rcases he with he | he
                      · exact hevs e he
                      · simp [he, isLoopEv]
              · simp only [hp] at he
                simp at he
                exact hevs e he
            | null => exact hevs e he
            | bool b => exact hevs e he
            | num q => exact hevs e he
            | nan => exact hevs e he
            | inf n => exact hevs e he
            | str st => exact hevs e he
            | arr xs => exact hevs e he
      · simp only [hadv] at he
        simp at he
        exact ih e he

theorem interpretResponse_evs_loopish (resp : String) :
    ∀ e ∈ (interpretResponse resp).1, isLoopEv e = true := by
  intro e he
  simp only [interpretResponse] at he
  cases hj : jsonLoads resp with
  | none => simp [hj] at he
  | some v =>
    rcases h1 : pyIn "tool" v with e1 | b1
    · simp [hj, h1] at he
    · cases b1 with
      | false => simp [hj, h1] at he
      | true =>
        rcases h2 : pyIn "arguments" v with e2 | b2
        · simp [hj, h1, h2] at he
        · cases b2 with
          | false => simp [hj, h1, h2] at he
          | true =>
            rcases h3 : pyGetItem v "tool" with e3 | tn
            · simp [hj, h1, h2, h3] at he
            · rcases h4 : pyGetItem v "arguments" with e4 | ta
              · simp only [hj, h1, h2, h3, h4] at he
                simp at he
                simp [he, isLoopEv]
              · simp only [hj, h1, h2, h3, h4] at he
                simp at he
                rcases he with he | he <;> simp [he, isLoopEv]

theorem processResponse_evs_loopish (servers : List ServerState) (resp : String) :
    ∀ e ∈ (processResponse servers resp).1, isLoopEv e = true := by
  intro e he
  simp only [processResponse] at he
  rcases hi : interpretResponse resp with ⟨evs, r⟩
  have hevs : ∀ x ∈ evs, isLoopEv x = true := by
    intro x hx
    exact interpretResponse_evs_loopish resp x (by rw [hi]; exact hx)
  rw [hi] at he
  cases r with
  | error er => exact hevs e he
  | ok d =>
    cases d with
    | terminate => exact hevs e he
    | reply t => exact hevs e he
    | toolDir n a =>
      simp at he
      rcases he with he | he
      · exact hevs e he
      · exact dispatchTool_evs_loopish n a servers e he

theorem cleanup_backend (s : ServerState) : (Server.cleanup s).1.backend = s.backend := by
  simp only [Server.cleanup, Server.cleanupBody, Server.aclose]
  by_cases hf : s.resources.reverse.any (fun r => r.2) = true <;> simp [hf]

theorem cleanupCallNames_cleanup (s : ServerState) :
    cleanupCallNames (Server.cleanup s).2 = [s.backend.name] := by
  simp only [Server.cleanup, Server.cleanupBody, Server.aclose]
  by_cases hf : s.resources.reverse.any (fun r => r.2) = true <;>
    simp [hf, cleanupCallNames, List.filterMap_map, Function.comp_def]

theorem completionsList_cleanup (s : ServerState) :
    completionsList (Server.cleanup s).2 = [] := by
  simp only [Server.cleanup, Server.cleanupBody, Server.aclose]
  by_cases hf : s.resources.reverse.any (fun r => r.2) = true <;>
    simp [hf, completionsList, List.filterMap_map, Function.comp_def]

theorem cleanupServers_backend_names (ss : List ServerState) :
    (cleanupServers ss).1.map (fun s => s.backend.name) =
      ss.map (fun s => s.backend.name) := by
  simp only [cleanupServers, List.map_map]
  induction ss with
  | nil => rfl
  | cons s rest ih =>
    simp only [List.map_cons, Function.comp_apply, cleanup_backend]
    exact congrArg _ ih

theorem cleanupServers_names (ss : List ServerState) :
    cleanupCallNames (cleanupServers ss).2 = (ss.map (fun s => s.backend.name)).reverse := by
  induction ss with
  | nil => rfl
  | cons s rest ih =>
    simp only [cleanupServers, List.map_cons, List.reverse_cons, List.flatten_append,
      List.flatten_cons, List.flatten_nil, List.append_nil] at ih ⊢
    rw [cleanupCallNames, List.filterMap_append, ← cleanupCallNames, ← cleanupCallNames,
      ih, cleanupCallNames_cleanup]

theorem cleanupServers_completions (ss : List ServerState) :
    completionsList (cleanupServers ss).2 = [] := by
  induction ss with
  | nil => rfl
  | cons s rest ih =>
    simp only [cleanupServers, List.map_cons, List.reverse_cons, List.flatten_append,
      List.flatten_cons, List.flatten_nil, List.append_nil] at ih ⊢
    rw [completionsList, List.filterMap_append, ← completionsList, ← completionsList,
      ih, completionsList_cleanup]
    rfl

theorem cleanup_mkState (b : Backend) :
    Server.cleanup (mkState b) = (mkState b, [Ev.cleanupCall b.name]) := rfl

@[simp]
theorem mkState_backend (b : Backend) : (mkState b).backend = b := rfl

@[simp]
theorem initedState_backend (b : Backend) : (initedState b).backend = b := rfl

theorem init_mkState_ok (b : Backend) (hb : b.initResult = none) :
    Server.init (mkState b) = (initedState b, [Ev.initOk b.name], none) := by
  simp [Server.init, mkState, initedState, hb]

theorem init_mkState_fail (b : Backend) (e : PyErr) (hb : b.initResult = some e) :
    Server.init (mkState b) =
      (mkState b,
       [Ev.initFail b.name,
        Ev.log ("Failed to initialize server " ++ b.name ++ ": " ++ pyErrStr e),
        Ev.cleanupCall b.name], some e) := by
  simp only [Server.init, mkState_backend, hb, cleanup_mkState]

theorem initLoop_success (bks : List Backend) (h : ∀ b ∈ bks, b.initResult = none) :
    ∀ done, initLoop done (bks.map mkState) =
      (done ++ bks.map initedState, bks.map (fun b => Ev.initOk b.name), true) := by
  induction bks with
  | nil => intro done; simp [initLoop]
  | cons b rest ih =>
    intro done
    have hb := h b (by simp)
    simp only [List.map_cons, initLoop, init_mkState_ok b hb]
    rw [ih (fun x hx => h x (by simp [hx])) (done ++ [initedState b])]
    simp [List.append_assoc]

theorem listAllTools_inited (bks : List Backend) :
    listAllTools (bks.map initedState) = .ok ((bks.map (fun b => b.tools)).flatten) := by
  induction bks with
  | nil => rfl
  | cons b rest ih => simp [listAllTools, Server.listTools, initedState, ih]

theorem initLoop_fail (pre : List Backend) (bad : Backend) (post : List Backend) (e : PyErr)
    (hpre : ∀ b ∈ pre, b.initResult = none) (hbad : bad.initResult = some e) :
    ∀ done, initLoop done (pre.map mkState ++ mkState bad :: post.map mkState) =
      ((cleanupServers (done ++ pre.map initedState ++ mkState bad :: post.map mkState)).1,
       pre.map (fun b => Ev.initOk b.name) ++
         Ev.initFail bad.name ::
         Ev.log ("Failed to initialize server " ++ bad.name ++ ": " ++ pyErrStr e) ::
         Ev.cleanupCall bad.name ::
         Ev.log ("Failed to initialize server: " ++ pyErrStr e) ::
         (cleanupServers (done ++ pre.map initedState ++ mkState bad :: post.map mkState)).2,
       false) := by
  induction pre with
  | nil =>
    intro done
    simp only [List.map_nil, List.nil_append, initLoop, init_mkState_fail bad e hbad]
    rcases hcs : cleanupServers (done ++ mkState bad :: post.map mkState) with ⟨ss2, evs2⟩
    simp [hcs]
  | cons b rest ih =>
    intro done
    have hb := hpre b (by simp)
    simp only [List.map_cons, List.cons_append, List.append_eq, initLoop, init_mkState_ok b hb]
    rw [ih (fun x hx => hpre x (by simp [hx])) (done ++ [initedState b])]
    simp [List.append_assoc]

@[simp]
theorem cleanupCallNames_nil : cleanupCallNames [] = [] := rfl

@[simp]
theorem cleanupCallNames_append (a b : List Ev) :
    cleanupCallNames (a ++ b) = cleanupCallNames a ++ cleanupCallNames b := by
  simp [cleanupCallNames]

@[simp]
theorem cleanupCallNames_cons_cleanup (n : String) (evs : List Ev) :
    cleanupCallNames (Ev.cleanupCall n :: evs) = n :: cleanupCallNames evs := rfl

@[simp]
theorem cleanupCallNames_cons_completion (r : String) (evs : List Ev) :
    cleanupCallNames (Ev.completion r :: evs) = cleanupCallNames evs := rfl

@[simp]
theorem cleanupCallNames_cons_log (m : String) (evs : List Ev) :
    cleanupCallNames (Ev.log m :: evs) = cleanupCallNames evs := rfl

@[simp]
theorem cleanupCallNames_cons_initOk (n : String) (evs : List Ev) :
    cleanupCallNames (Ev.initOk n :: evs) = cleanupCallNames evs := rfl

@[simp]
theorem cleanupCallNames_cons_initFail (n : String) (evs : List Ev) :
    cleanupCallNames (Ev.initFail n :: evs) = cleanupCallNames evs := rfl

@[simp]
theorem completionsList_nil : completionsList [] = [] := rfl

@[simp]
theorem completionsList_append (a b : List Ev) :
    completionsList (a ++ b) = completionsList a ++ completionsList b := by
  simp [completionsList]

@[simp]
theorem completionsList_cons_completion (r : String) (evs : List Ev) :
    completionsList (Ev.completion r :: evs) = r :: completionsList evs := rfl

@[simp]
theorem completionsList_cons_cleanup (n : String) (evs : List Ev) :
    completionsList (Ev.cleanupCall n :: evs) = completionsList evs := rfl

@[simp]
theorem completionsList_cons_log (m : String) (evs : List Ev) :
    completionsList (Ev.log m :: evs) = completionsList evs := rfl

@[simp]
theorem completionsList_cons_initOk (n : String) (evs : List Ev) :
    completionsList (Ev.initOk n :: evs) = completionsList evs := rfl

@[simp]
theorem completionsList_cons_initFail (n : String) (evs : List Ev) :
    completionsList (Ev.initFail n :: evs) = completionsList evs := rfl

theorem cleanupCallNames_initOks (bks : List Backend) :
    cleanupCallNames (bks.map (fun b => Ev.initOk b.name)) = [] := by
  rw [cleanupCallNames, List.filterMap_eq_nil_iff]
  intro e he
  simp at he
  obtain ⟨b, _, rfl⟩ := he
  rfl

theorem completionsList_initOks (bks : List Backend) :
    completionsList (bks.map (fun b => Ev.initOk b.name)) = [] := by
  rw [completionsList, List.filterMap_eq_nil_iff]
  intro e he
  simp at he
  obtain ⟨b, _, rfl⟩ := he
  rfl

/-- One terminating run of the conversation loop: if the k completions
before the terminate token all process to non-"end" replies and the
(k+1)-th processes to "end", the loop returns the reply captured last and
emits no cleanup event of its own. -/
theorem convLoop_term (ss : List ServerState) (llm : Nat → String) :
    ∀ (k turn fuel : Nat) (finalRes : String) (msgs : List (String × String)),
    (∀ i, i < k → ∃ r, (processResponse ss (llm (turn + i))).2 = .ok r ∧ r ≠ "end") →
    (processResponse ss (llm (turn + k))).2 = .ok "end" →
    k < fuel →
    (convLoop ss llm turn finalRes msgs fuel).2.2 =
      .returned (some (lastResFrom ss llm turn finalRes k)) ∧
    cleanupCallNames (convLoop ss llm turn finalRes msgs fuel).1 = [] := by
  intro k
  induction k with
  | zero =>
    intro turn fuel finalRes msgs _hpre hk hfuel
    obtain ⟨f, rfl⟩ : ∃ f, fuel = f + 1 := ⟨fuel - 1, by omega⟩
    rw [Nat.add_zero] at hk
    rcases hp : processResponse ss (llm turn) with ⟨evs, r⟩
    have hr : r = .ok "end" := by rw [hp] at hk; exact hk
    subst hr
    have hevs : cleanupCallNames evs = [] :=
      cleanupCallNames_of_loopish evs
        (fun x hx => processResponse_evs_loopish ss (llm turn) x (by rw [hp]; exact hx))
    constructor
    · simp [convLoop, hp, lastResFrom]
    · simp [convLoop, hp, hevs]
  | succ j ih =>
    intro turn fuel finalRes msgs hpre hk hfuel
    obtain ⟨f, rfl⟩ : ∃ f, fuel = f + 1 := ⟨fuel - 1, by omega⟩
    obtain ⟨r0, hr0, hr0ne⟩ := hpre 0 (by omega)
    rw [Nat.add_zero] at hr0
    have hpre2 : ∀ i, i < j →
        ∃ r, (processResponse ss (llm (turn + 1 + i))).2 = .ok r ∧ r ≠ "end" := by
      intro i hi
      have h := hpre (i + 1) (by omega)
      have harith : turn + (i + 1) = turn + 1 + i := by omega
      rwa [harith] at h
    have hk2 : (processResponse ss (llm (turn + 1 + j))).2 = .ok "end" := by
      have harith : turn + (j + 1) = turn + 1 + j := by omega
      rwa [harith] at hk
    have ihx := ih (turn + 1) f r0 (msgs ++ [("assistant", r0)]) hpre2 hk2 (by omega)
    rcases hp : processResponse ss (llm turn) with ⟨evs, r⟩
    have hr : r = .ok r0 := by rw [hp] at hr0; exact hr0
    subst hr
    have hevs : cleanupCallNames evs = [] :=
      cleanupCallNames_of_loopish evs
        (fun x hx => processResponse_evs_loopish ss (llm turn) x (by rw [hp]; exact hx))
    have hlast : lastResFrom ss llm (turn + 1) r0 j = lastResFrom ss llm turn finalRes (j + 1) := by
      cases j with
      | zero => simp [lastResFrom, hr0]
      | succ i =>
        obtain ⟨r1, hr1, _⟩ := hpre (i + 1) (by omega)
        have harith : turn + 1 + i = turn + (i + 1) := by omega
        simp only [lastResFrom, harith, hr1]
    constructor
    · simp only [convLoop, hp]
      simp [hr0ne, ihx.1, hlast]
    · simp only [convLoop, hp]
      simp [hr0ne, hevs, ihx.2]

/-- Claim C2: when the interpreter yields Terminate (the completion "end"),
the loop exits returning the last previously captured reply rather than the
"end" token itself, and by the time send returns, cleanup has run exactly
once on every server, in reverse registry order. -/
theorem claim_C2 (bks : List Backend) (llm : Nat → String) (msg : String) (k fuel : Nat)
    (hinit : ∀ b ∈ bks, b.initResult = none)
    (hpre : ∀ i, i < k → ∃ r, procVal (bks.map initedState) (llm i) = .ok r ∧ r ≠ "end")
    (hk : procVal (bks.map initedState) (llm k) = .ok "end")
    (hfuel : k < fuel) :
    sendRes (agentSend (bks.map mkState) llm msg fuel) =
      .returned (some (lastResFrom (bks.map initedState) llm 0 "" k)) ∧
    cleanupCallNames (sendEvs (agentSend (bks.map mkState) llm msg fuel)) =
      (bks.map Backend.name).reverse := by
  have hloop := convLoop_term (bks.map initedState) llm k 0 fuel ""
    [("system", systemMessage ((bks.map (fun b => b.tools)).flatten)), ("user", msg)]
    (by intro i hi; have h := hpre i hi; simpa [procVal] using h)
    (by simpa [procVal] using hk) hfuel
  rcases hcl : convLoop (bks.map initedState) llm 0 ""
      [("system", systemMessage ((bks.map (fun b => b.tools)).flatten)), ("user", msg)] fuel
    with ⟨evs2, msgs2, r2⟩
  rw [hcl] at hloop
  obtain ⟨hr2, hevs2⟩ := hloop
  simp only at hr2 hevs2
  subst hr2
  constructor
  · simp [agentSend, initLoop_success bks hinit [], listAllTools_inited, hcl, sendRes]
  · simp only [agentSend, initLoop_success bks hinit [], List.nil_append,
      listAllTools_inited, hcl, sendEvs]
    simp [cleanupCallNames_initOks, hevs2, cleanupServers_names, List.map_map,
      Function.comp_def]

/-- Witness for C2 at the spec's end-to-end example: one backend exposing
list_files, completions = the structured directive then "end"; the run
returns the formatted tool result of the first turn, and cleanup ran
exactly once. -/
theorem claim_C2_witness :
    sendRes (agentSend [mkState bkFiles] llmFilesThenEnd "q" 3) =
      .returned (some "Tool execution result: a.py b.py") ∧
    cleanupCallNames (sendEvs (agentSend [mkState bkFiles] llmFilesThenEnd "q" 3)) =
      ["files"] := by
  have h := claim_C2 [bkFiles] llmFilesThenEnd "q" 1 3
    (by intro b hb; simp at hb; subst hb; rfl)
    (by
      intro i hi
      have : i = 0 := by omega
      subst this
      exact ⟨"Tool execution result: a.py b.py", rfl, by decide⟩)
    rfl (by omega)
  obtain ⟨h1, h2⟩ := h
  constructor
  · rw [show [mkState bkFiles] = List.map mkState [bkFiles] from rfl, h1]
    rfl
  · rw [show [mkState bkFiles] = List.map mkState [bkFiles] from rfl, h2]
    rfl

/-- Claim C1 (amended): when backend initialization fails partway, every
already-initialized backend has cleanup invoked — but exactly twice, not
once: the failure path calls cleanup_servers and the finally block calls it
again, each full pass visiting the registry in reverse order (hence the
already-initialized prefix in reverse initialization order); the failing
server also cleans itself up inside initialize. The session reports
failure (send returns None), the conversation loop is never entered and no
completion call is made. -/
theorem claim_C1 (pre : List Backend) (bad : Backend) (post : List Backend) (e : PyErr)
    (llm : Nat → String) (msg : String) (fuel : Nat)
    (hpre : ∀ b ∈ pre, b.initResult = none) (hbad : bad.initResult = some e) :
    sendRes (agentSend (pre.map mkState ++ mkState bad :: post.map mkState) llm msg fuel) =
      .returned none ∧
    completionsList
      (sendEvs (agentSend (pre.map mkState ++ mkState bad :: post.map mkState) llm msg fuel)) =
      [] ∧
    cleanupCallNames
      (sendEvs (agentSend (pre.map mkState ++ mkState bad :: post.map mkState) llm msg fuel)) =
      bad.name ::
        ((pre.map Backend.name ++ bad.name :: post.map Backend.name).reverse ++
         (pre.map Backend.name ++ bad.name :: post.map Backend.name).reverse) := by
  have hfail := initLoop_fail pre bad post e hpre hbad []
  rw [List.nil_append] at hfail
  refine ⟨?_, ?_, ?_⟩
  · simp [agentSend, hfail, sendRes]
  · simp only [agentSend, hfail, sendEvs]
    simp [completionsList_initOks, cleanupServers_completions]
  · simp only [agentSend, hfail, sendEvs]
    simp [cleanupCallNames_initOks, cleanupServers_names, cleanupServers_backend_names,
      List.map_map, Function.comp_def]

/-- Witness for C1 (amended): concrete two-server registry where the second
init fails — returned None, no completions, and the cleanup trace is the
failing server's own internal cleanup followed by two full reverse passes. -/
theorem claim_C1_witness :
    sendRes (agentSend [mkState bkFiles, mkState bkBad] llmFilesThenEnd "q" 5) =
      .returned none ∧
    completionsList (sendEvs (agentSend [mkState bkFiles, mkState bkBad] llmFilesThenEnd "q" 5)) =
      [] ∧
    cleanupCallNames (sendEvs (agentSend [mkState bkFiles, mkState bkBad] llmFilesThenEnd "q" 5)) =
      "badsrv" :: ((["files"] ++ "badsrv" :: []).reverse ++ (["files"] ++ "badsrv" :: []).reverse) :=
  claim_C1 [bkFiles] bkBad [] (.userError "boom") llmFilesThenEnd "q" 5
    (by intro b hb; simp at hb; subst hb; rfl) rfl

/-- Counterexample to C1 as stated: in the same two-server run, the
already-initialized first backend ("files") gets cleanup invoked twice, not
exactly once. -/
theorem claim_C1_counterexample :
    (cleanupCallNames
      (sendEvs (agentSend [mkState bkFiles, mkState bkBad] llmFilesThenEnd "q" 5))).count
        "files" = 2 ∧
    ¬ (cleanupCallNames
      (sendEvs (agentSend [mkState bkFiles, mkState bkBad] llmFilesThenEnd "q" 5))).count
        "files" = 1 := by
  exact ⟨by rfl, by decide⟩

theorem pyIn_ok_shape (k : String) (v : JVal) (b : Bool) (h : pyIn k v = .ok b) :
    (∃ fs, v = .obj fs) ∨ (∃ xs, v = .arr xs) ∨ (∃ t, v = .str t) := by
  cases v <;> simp_all [pyIn]

/-- Claim C9: completions that are valid JSON but parse to non-container,
non-string values — "5" (an int), "true" (a bool) — make the membership
test `"tool" in tool_call` raise an uncaught TypeError, which aborts the
whole send loop; the plain-reply fallback only covers inputs that fail JSON
parsing or parse to containers or strings lacking a required field. -/
theorem claim_C9 :
    interpretVal "5" =
      .error (.typeError ("argument of type " ++ aposS ++ "int" ++ aposS ++
        " is not iterable")) ∧
    interpretVal "true" =
      .error (.typeError ("argument of type " ++ aposS ++ "bool" ++ aposS ++
        " is not iterable")) ∧
    sendRes (agentSend [mkState bkFiles] (fun _ => "5") "q" 3) =
      .raised (.typeError ("argument of type " ++ aposS ++ "int" ++ aposS ++
        " is not iterable")) ∧
    (∀ (s : String) (d : Directive), interpretVal s = .ok d →
      (d = .reply s ∨ d = .terminate) →
      jsonLoads s = none ∨
      ∃ v, jsonLoads s = some v ∧
        ((∃ fs, v = .obj fs) ∨ (∃ xs, v = .arr xs) ∨ (∃ t, v = .str t)) ∧
        (pyIn "tool" v = .ok false ∨ pyIn "arguments" v = .ok false)) := by
  refine ⟨by rfl, by rfl, by rfl, ?_⟩
  intro s d hd hcase
  cases hj : jsonLoads s with
  | none => exact Or.inl rfl
  | some v =>
    refine Or.inr ⟨v, rfl, ?_, ?_⟩
    · rcases h1 : pyIn "tool" v with e1 | b1
      · simp [interpretVal, interpretResponse, hj, h1] at hd
      · exact pyIn_ok_shape "tool" v b1 h1
    · rcases h1 : pyIn "tool" v with e1 | b1
      · simp [interpretVal, interpretResponse, hj, h1] at hd
      · cases b1 with
        | false => exact Or.inl rfl
        | true =>
          rcases h2 : pyIn "arguments" v with e2 | b2
          · simp [interpretVal, interpretResponse, hj, h1, h2] at hd
          · cases b2 with
            | false => exact Or.inr rfl
            | true =>
              rcases h3 : pyGetItem v "tool" with e3 | tn
              · simp [interpretVal, interpretResponse, hj, h1, h2, h3] at hd
              · rcases h4 : pyGetItem v "arguments" with e4 | ta
                · simp [interpretVal, interpretResponse, hj, h1, h2, h3, h4] at hd
                · simp only [interpretVal, interpretResponse, hj, h1, h2, h3, h4] at hd
                  simp at hd
                  rcases hcase with hc | hc <;> (rw [← hd] at hc; simp at hc)

/-- Witness for C9's universally quantified coverage clause at the plain
reply "Hello there": it is covered because it fails JSON parsing. -/
theorem claim_C9_witness :
    jsonLoads "Hello there" = none ∨
    ∃ v, jsonLoads "Hello there" = some v ∧
      ((∃ fs, v = .obj fs) ∨ (∃ xs, v = .arr xs) ∨ (∃ t, v = .str t)) ∧
      (pyIn "tool" v = .ok false ∨ pyIn "arguments" v = .ok false) :=
  claim_C9.2.2.2 "Hello there" (.reply "Hello there") (by rfl) (Or.inl rfl)

/-- Witness for C10: the two concrete progress backends — missing total
gives the KeyError reply, total 0 gives the ZeroDivisionError reply. -/
theorem claim_C10_witness :
    (dispatchTool [initedState bkProgNoTotal] (.str "work") (.obj [])).2 =
      .ok ("Error executing tool: " ++ pyErrStr (.keyError "total")) ∧
    (dispatchTool [initedState bkProgZero] (.str "work") (.obj [])).2 =
      .ok ("Error executing tool: " ++ pyErrStr .zeroDivisionError) :=
  ⟨(claim_C10 (initedState bkProgNoTotal) [] "work" (.obj []) [("progress", .num 1)]
      (.num 1) rfl rfl rfl rfl).1 rfl,
   (claim_C10 (initedState bkProgZero) [] "work" (.obj [])
      [("progress", .num 1), ("total", .num 0)] (.num 1) rfl rfl rfl rfl).2 1 rfl rfl⟩

end MCP


